import Mathlib

/-!
Verification development for the `self_update` crate (update orchestration
and binary-replacement engine).  Pure shallow embedding of `src/lib.rs` and
`src/backends/github.rs`: console I/O becomes an event trace, the network
and the filesystem become explicit inputs, fallible code returns `Except`.
-/

namespace SelfUpdate

/-- The crate's error type (`errors::Error`): an `Update` failure or a
`Config` (configuration) failure, each carrying a message. -/
inductive Error where
  | Update (msg : String)
  | Config (msg : String)
deriving DecidableEq

/-- File contents as a list of bytes. -/
abbrev ByteStr := List Nat

/- ## String helpers mirroring the Rust primitives used by the crate -/

/-- Byte-wise lexicographic comparison of two character lists, mirroring
Rust's `Ord for str` (byte-wise comparison of the UTF-8 encodings; UTF-8
encoding preserves codepoint order, so comparing codepoints is faithful). -/
def cmpChars : List Char → List Char → Ordering
  | [], [] => Ordering.eq
  | [], _ :: _ => Ordering.lt
  | _ :: _, [] => Ordering.gt
  | a :: xs, b :: ys =>
    if a.toNat < b.toNat then Ordering.lt
    else if b.toNat < a.toNat then Ordering.gt
    else cmpChars xs ys

/-- `a.cmp(&b)` on Rust strings. -/
def cmpStr (a b : String) : Ordering := cmpChars a.data b.data

/-- Drop every leading `'v'` character, mirroring
`str::trim_left_matches("v")` (which strips repeated occurrences of the
pattern). -/
def dropLeadV : List Char → List Char
  | [] => []
  | c :: cs => if c = 'v' then dropLeadV cs else c :: cs

/-- `tag.trim_left_matches("v")` as used on the release tag. -/
def trimLeadV (s : String) : String := String.mk (dropLeadV s.data)

/-- `leadsWith pat l` holds when `pat` is an initial segment of `l`. -/
def leadsWith : List Char → List Char → Bool
  | [], _ => true
  | _ :: _, [] => false
  | p :: ps, c :: cs => p = c && leadsWith ps cs

/-- `hasSub pat l` holds when `pat` occurs contiguously inside `l`. -/
def hasSub (pat : List Char) : List Char → Bool
  | [] => pat.isEmpty
  | c :: cs => leadsWith pat (c :: cs) || hasSub pat cs

/-- Rust's `hay.contains(pat)` substring test. -/
def containsStr (hay pat : String) : Bool := hasSub pat.data hay.data

/-- Drop leading whitespace characters (Rust trims Unicode whitespace; the
version strings and prompt answers involved are ASCII, where
`Char.isWhitespace` agrees). -/
def dropWs : List Char → List Char
  | [] => []
  | c :: cs => if c.isWhitespace then dropWs cs else c :: cs

/-- Rust's `str::trim`: whitespace removed from both ends. -/
def rustTrim (s : String) : String :=
  String.mk ((dropWs (dropWs s.data).reverse).reverse)

/-- Rust's `str::to_lowercase` restricted to ASCII (the only inputs compared
against are ASCII tokens). -/
def lowerStr (s : String) : String := String.mk (s.data.map Char.toLower)

/- ## `prompt_ok` (src/lib.rs lines 97-107) -/

/-- `prompt_ok`: reads one line `input`; aborts with `Error::Update
"Update aborted"` unless the trimmed, lowercased line equals `"y"`. -/
def prompt_ok (input : String) : Except Error Unit :=
  if lowerStr (rustTrim input) ≠ "y" then
    Except.error (Error.Update "Update aborted")
  else Except.ok ()

/- ## `download_to_file_with_progress` (src/lib.rs lines 143-170) -/

/-- An HTTP response as the downloader observes it: success flag of the
status, the optional `ContentLength` header, and the successive non-empty
buffers returned by `fill_buf` (the terminating empty read is implicit). -/
structure HttpResponse where
  success : Bool
  contentLength : Option Nat
  chunks : List ByteStr
deriving DecidableEq

/-- Observable events of one download: a progress-bar render (with the
declared total and the bytes read so far), a write of a chunk to the
destination, and the final `" ... Done"` line. -/
inductive DlEv where
  | progress (total bytesRead : Nat)
  | write (chunk : ByteStr)
  | doneMsg
deriving DecidableEq

/-- Events that are progress display output (the bar renders and the
closing `Done` line), as opposed to writes to the destination. -/
def isProgressEv : DlEv → Bool
  | DlEv.progress _ _ => true
  | DlEv.doneMsg => true
  | DlEv.write _ => false

/-- The read/write loop of `download_to_file_with_progress`: on each
iteration it first renders progress (when enabled), then writes the buffer
returned by `fill_buf`; the loop ends when a read returns an empty buffer
(the final iteration still renders and performs the empty `write_all`). -/
def dlLoop (sp : Bool) (size : Nat) : List ByteStr → Nat → List DlEv
  | [], bytesRead =>
    (if sp then [DlEv.progress size bytesRead] else []) ++ [DlEv.write []]
  | c :: cs, bytesRead =>
    (if sp then [DlEv.progress size bytesRead] else []) ++
      DlEv.write c :: dlLoop sp size cs (bytesRead + c.length)

/-- `download_to_file_with_progress`: reads the content length (defaulting
to 0), fails on a non-success status before touching the body, force-
disables progress when the size is 0, then runs the chunk loop and prints
the closing line when progress was shown. -/
def download_to_file_with_progress (resp : HttpResponse) (show_progress : Bool) :
    Except Error Unit × List DlEv :=
  let size := resp.contentLength.getD 0
  if !resp.success then
    (Except.error (Error.Update "Download request failed with status"), [])
  else
    let sp := if size = 0 then false else show_progress
    (Except.ok (), dlLoop sp size resp.chunks 0 ++ if sp then [DlEv.doneMsg] else [])

/- ## Release assets (src/backends/github.rs lines 18-38) -/

/-- One entry of the `assets` array of the release-metadata JSON, as the
parser observes it: each field is `some s` when the key is present with a
string value (`as_str()` succeeds), `none` otherwise. -/
structure AssetJson where
  browser_download_url : Option String
  name : Option String
deriving DecidableEq

/-- `ReleaseAsset`: the `(download_url, name)` pair of one release asset. -/
structure ReleaseAsset where
  download_url : String
  name : String
deriving DecidableEq

/-- `ReleaseAsset::from_asset`: fails with an `Update` error when the
`browser_download_url` or `name` key is missing (checked in that order). -/
def ReleaseAsset.from_asset (a : AssetJson) : Except Error ReleaseAsset :=
  match a.browser_download_url with
  | none => Except.error (Error.Update "Asset missing browser_download_url")
  | some url =>
    match a.name with
    | none => Except.error (Error.Update "Asset missing name")
    | some n => Except.ok { download_url := url, name := n }

/-- `assets.iter().map(ReleaseAsset::from_asset).collect::<Result<Vec<_>>>()`:
parses every entry, short-circuiting on the first failure. -/
def collectAssets : List AssetJson → Except Error (List ReleaseAsset)
  | [] => Except.ok []
  | a :: rest =>
    match ReleaseAsset.from_asset a with
    | Except.error e => Except.error e
    | Except.ok ra =>
      match collectAssets rest with
      | Except.error e => Except.error e
      | Except.ok ras => Except.ok (ra :: ras)

/-- Asset selection in `Updater::update` (github.rs lines 215-219): parse
all assets, keep those whose name contains the target, take the first
(`nth(0)`), and fail with an `Update` error when none matches. -/
def selectAsset (assets : List AssetJson) (target : String) : Except Error ReleaseAsset :=
  match collectAssets assets with
  | Except.error e => Except.error e
  | Except.ok ras =>
    match (ras.filter fun ra => containsStr ra.name target).head? with
    | some ra => Except.ok ra
    | none =>
      Except.error (Error.Update ("No release asset found for current target: " ++ target))

/- ## Builder and Updater configuration (github.rs lines 41-171) -/

/-- `github::Builder`: every configuration field starts absent and is set
by a setter; `bin_install_path` is pre-filled from the current executable
path by `Builder::new`. -/
structure Builder where
  repo_owner : Option String
  repo_name : Option String
  target : Option String
  bin_name : Option String
  bin_install_path : Option String
  bin_path_in_tarball : Option String
  show_progress : Bool
  current_version : Option String
deriving DecidableEq

/-- `github::Updater`: the validated configuration record. -/
structure Updater where
  repo_owner : String
  repo_name : String
  target : String
  current_version : String
  bin_name : String
  bin_install_path : String
  bin_path_in_tarball : String
  show_progress : Bool
deriving DecidableEq

/-- `Builder::new`, with the current executable path passed explicitly in
place of `env::current_exe()`. -/
def Builder.new (current_exe : String) : Builder :=
  { repo_owner := none, repo_name := none, target := none, bin_name := none,
    bin_install_path := some current_exe, bin_path_in_tarball := none,
    show_progress := false, current_version := none }

/-- `Builder::repo_owner` setter. -/
def Builder.set_repo_owner (b : Builder) (owner : String) : Builder :=
  { b with repo_owner := some owner }

/-- `Builder::repo_name` setter. -/
def Builder.set_repo_name (b : Builder) (name : String) : Builder :=
  { b with repo_name := some name }

/-- `Builder::current_version` setter. -/
def Builder.set_current_version (b : Builder) (ver : String) : Builder :=
  { b with current_version := some ver }

/-- `Builder::target` setter. -/
def Builder.set_target (b : Builder) (t : String) : Builder :=
  { b with target := some t }

/-- `Builder::bin_name` setter; also defaults `bin_path_in_tarball` to the
name when it is not yet set. -/
def Builder.set_bin_name (b : Builder) (name : String) : Builder :=
  { b with bin_name := some name,
           bin_path_in_tarball :=
             match b.bin_path_in_tarball with
             | none => some name
             | some p => some p }

/-- `Builder::bin_install_path` setter. -/
def Builder.set_bin_install_path (b : Builder) (p : String) : Builder :=
  { b with bin_install_path := some p }

/-- `Builder::bin_path_in_tarball` setter. -/
def Builder.set_bin_path_in_tarball (b : Builder) (p : String) : Builder :=
  { b with bin_path_in_tarball := some p }

/-- `Builder::show_progress` setter. -/
def Builder.set_show_progress (b : Builder) (s : Bool) : Builder :=
  { b with show_progress := s }

/-- `Builder::build`: bails with a `Config` error on the first absent
field, in the source's field order; a field that is set (even to the empty
string) passes. -/
def Builder.build (b : Builder) : Except Error Updater :=
  match b.repo_owner with
  | none => Except.error (Error.Config "repo_owner required")
  | some owner =>
  match b.repo_name with
  | none => Except.error (Error.Config "repo_name required")
  | some name =>
  match b.target with
  | none => Except.error (Error.Config "target required")
  | some target =>
  match b.bin_name with
  | none => Except.error (Error.Config "bin_name required")
  | some bin_name =>
  match b.bin_install_path with
  | none => Except.error (Error.Config "bin_install_path required")
  | some install =>
  match b.bin_path_in_tarball with
  | none => Except.error (Error.Config "bin_path_in_tarball required")
  | some in_tarball =>
  match b.current_version with
  | none => Except.error (Error.Config "current_version required")
  | some ver =>
    Except.ok { repo_owner := owner, repo_name := name, target := target,
                current_version := ver, bin_name := bin_name,
                bin_install_path := install, bin_path_in_tarball := in_tarball,
                show_progress := b.show_progress }

/- ## `replace_exe` (src/lib.rs lines 194-203) -/

/-- The filesystem as a map from paths to optional file contents. -/
def Fs := String → Option ByteStr

/-- Environment choices for the fallible filesystem calls inside
`replace_exe`: whether the backup copy, the rename, and the restoring copy
succeed (a call also fails when its source file is absent). -/
structure ReplaceOracle where
  copyOk : Bool
  renameOk : Bool
  restoreOk : Bool
deriving DecidableEq

/-- Point update of a filesystem. -/
def fsWrite (fs : Fs) (p : String) (c : Option ByteStr) : Fs :=
  fun q => if q = p then c else fs q

/-- `fs::copy(src, dst)`, modelled as atomic: on success `dst` holds the
contents of `src`; on failure the filesystem is unchanged. -/
def fsCopy (ok : Bool) (src dst : String) (fs : Fs) : Except Error Fs :=
  match fs src with
  | none => Except.error (Error.Update "copy failed: source missing")
  | some c =>
    if ok then Except.ok (fsWrite fs dst (some c))
    else Except.error (Error.Update "copy failed")

/-- `fs::rename(src, dst)`, modelled as atomic: on success `dst` holds the
contents of `src` and `src` is gone; on failure the filesystem is
unchanged. -/
def fsRename (ok : Bool) (src dst : String) (fs : Fs) : Except Error Fs :=
  match fs src with
  | none => Except.error (Error.Update "rename failed: source missing")
  | some c =>
    if ok then Except.ok (fsWrite (fsWrite fs dst (some c)) src none)
    else Except.error (Error.Update "rename failed")

/-- `replace_exe(current_exe, new_exe, tmp_file)`: back up the current
executable to `tmp_file`, try to rename `new_exe` onto `current_exe`, and
on rename failure copy the backup back.  Note the `Err(_)` arm of the
source discards the rename error and the function falls through to
`Ok(())`. -/
def replace_exe (o : ReplaceOracle) (current_exe new_exe tmp_file : String)
    (fs : Fs) : Except Error Unit × Fs :=
  match fsCopy o.copyOk current_exe tmp_file fs with
  | Except.error e => (Except.error e, fs)
  | Except.ok fs1 =>
    match fsRename o.renameOk new_exe current_exe fs1 with
    | Except.error _ =>
      match fsCopy o.restoreOk tmp_file current_exe fs1 with
      | Except.error e => (Except.error e, fs1)
      | Except.ok fs2 => (Except.ok (), fs2)
    | Except.ok fs2 => (Except.ok (), fs2)

/- ## `Updater::update` orchestration (github.rs lines 179-246) -/

/-- The release-metadata document: the optional `tag_name` string and the
optional `assets` array (each `none` when the key is missing or has the
wrong JSON type). -/
structure ReleaseJson where
  tag_name : Option String
  assets : Option (List AssetJson)
deriving DecidableEq

/-- Coarse side-effect events of one orchestration run: the metadata
fetch, asset selection, the confirmation prompt, the download, the
extraction, and the binary replacement. -/
inductive Ev where
  | fetch
  | select
  | prompt
  | downloadStep
  | extract
  | replace
deriving DecidableEq

/-- External world of one `update` run: the API response (status and
body), the line typed at the prompt, the download response, and the
outcomes of the extraction and replacement steps. -/
structure UpdateEnv where
  apiSuccess : Bool
  release : ReleaseJson
  promptInput : String
  dlResp : HttpResponse
  extractOk : Bool
  replaceResult : Except Error Unit

/-- `Updater::update`: check the API call, extract `tag_name`, strip the
leading `v`s, short-circuit with `Ok` when the stripped tag is not
ordinally greater than the current version, then select the asset, prompt,
download, extract, and replace — propagating each step's error.  Returns
the result together with the trace of side-effect events. -/
def Updater.update (u : Updater) (env : UpdateEnv) : Except Error Unit × List Ev :=
  if !env.apiSuccess then
    (Except.error (Error.Update "api request failed with status"), [Ev.fetch])
  else
    match env.release.tag_name with
    | none => (Except.error (Error.Update "No tag_name found for latest release"), [Ev.fetch])
    | some tag =>
      let latest_tag := trimLeadV tag
      if cmpStr latest_tag u.current_version ≠ Ordering.gt then
        (Except.ok (), [Ev.fetch])
      else
        match env.release.assets with
        | none =>
          (Except.error (Error.Update "No release assets found"), [Ev.fetch, Ev.select])
        | some assetList =>
          match selectAsset assetList u.target with
          | Except.error e => (Except.error e, [Ev.fetch, Ev.select])
          | Except.ok _ =>
            match prompt_ok env.promptInput with
            | Except.error e => (Except.error e, [Ev.fetch, Ev.select, Ev.prompt])
            | Except.ok _ =>
              match (download_to_file_with_progress env.dlResp u.show_progress).1 with
              | Except.error e =>
                (Except.error e, [Ev.fetch, Ev.select, Ev.prompt, Ev.downloadStep])
              | Except.ok _ =>
                if !env.extractOk then
                  (Except.error (Error.Update "extract failed"),
                   [Ev.fetch, Ev.select, Ev.prompt, Ev.downloadStep, Ev.extract])
                else
                  match env.replaceResult with
                  | Except.error e =>
                    (Except.error e,
                     [Ev.fetch, Ev.select, Ev.prompt, Ev.downloadStep, Ev.extract, Ev.replace])
                  | Except.ok _ =>
                    (Except.ok (),
                     [Ev.fetch, Ev.select, Ev.prompt, Ev.downloadStep, Ev.extract, Ev.replace])

/- ## Concrete instances used to exercise the definitions -/

/-- A small filesystem: an installed executable at `"cur"` with contents
`[1]`, a freshly extracted executable at `"new"` with contents `[2]`, and
nothing at the backup path `"tmp"`. -/
def fsDemo : Fs := fun p =>
  if p = "cur" then some [1] else if p = "new" then some [2] else none

/-- A concrete validated configuration for exercising `Updater.update`. -/
def updTest : Updater :=
  { repo_owner := "o", repo_name := "r", target := "x86_64-unknown-linux-gnu",
    current_version := "1.0.0", bin_name := "app", bin_install_path := "/usr/bin/app",
    bin_path_in_tarball := "app", show_progress := false }

/-- An environment whose latest release tag equals the current version. -/
def envUpToDate : UpdateEnv :=
  { apiSuccess := true,
    release := { tag_name := some "v1.0.0", assets := none },
    promptInput := "y",
    dlResp := ⟨true, some 2, [[1, 2]]⟩,
    extractOk := true,
    replaceResult := Except.ok () }

/-- An environment with a newer release and a matching asset, where the
user answers `"n"` at the confirmation prompt. -/
def envDecline : UpdateEnv :=
  { apiSuccess := true,
    release := { tag_name := some "v1.2.0",
                 assets := some [⟨some "u1", some "app-x86_64-unknown-linux-gnu.tar.gz"⟩] },
    promptInput := "n",
    dlResp := ⟨true, some 2, [[1, 2]]⟩,
    extractOk := true,
    replaceResult := Except.ok () }

/- ## Helper lemmas -/

theorem head?_filter_eq_find? {α : Type} (p : α → Bool) (l : List α) :
    (l.filter p).head? = l.find? p := by
  induction l with
  | nil => rfl
  | cons a l ih =>
    by_cases h : p a <;> simp [List.filter_cons, List.find?_cons, h, ih]

theorem dlLoop_no_progress (size : Nat) (cs : List ByteStr) (n : Nat) :
    ∀ e ∈ dlLoop false size cs n, isProgressEv e = false := by
  induction cs generalizing n with
  | nil =>
    intro e he
    simp [dlLoop] at he
    simp [he, isProgressEv]
  | cons c cs ih =>
    intro e he
    simp [dlLoop] at he
    rcases he with h | h
    · simp [h, isProgressEv]
    · exact ih _ e h

theorem collectAssets_shape (l : List AssetJson) :
    (∃ ras, collectAssets l = Except.ok ras) ∨
    (∃ msg, collectAssets l = Except.error (Error.Update msg)) := by
  induction l with
  | nil => exact Or.inl ⟨[], rfl⟩
  | cons a rest ih =>
    cases hu : a.browser_download_url with
    | none =>
      exact Or.inr ⟨"Asset missing browser_download_url",
        by simp [collectAssets, ReleaseAsset.from_asset, hu]⟩
    | some url =>
      cases hn : a.name with
      | none =>
        exact Or.inr ⟨"Asset missing name",
          by simp [collectAssets, ReleaseAsset.from_asset, hu, hn]⟩
      | some n =>
        rcases ih with ⟨ras, hr⟩ | ⟨msg, hr⟩
        · exact Or.inl ⟨{ download_url := url, name := n } :: ras,
            by simp [collectAssets, ReleaseAsset.from_asset, hu, hn, hr]⟩
        · exact Or.inr ⟨msg, by simp [collectAssets, ReleaseAsset.from_asset, hu, hn, hr]⟩

theorem collectAssets_present_of_ok (l : List AssetJson) (ras : List ReleaseAsset)
    (h : collectAssets l = Except.ok ras) :
    ∀ a ∈ l, a.browser_download_url.isSome ∧ a.name.isSome := by
  induction l generalizing ras with
  | nil => simp
  | cons a rest ih =>
    intro b hb
    cases hu : a.browser_download_url with
    | none => simp [collectAssets, ReleaseAsset.from_asset, hu] at h
    | some url =>
      cases hn : a.name with
      | none => simp [collectAssets, ReleaseAsset.from_asset, hu, hn] at h
      | some n =>
        rcases List.mem_cons.mp hb with rfl | hb
        · simp [hu, hn]
        · rcases collectAssets_shape rest with ⟨ras2, hr⟩ | ⟨msg, hr⟩
          · exact ih ras2 hr b hb
          · simp [collectAssets, ReleaseAsset.from_asset, hu, hn, hr] at h

theorem collectAssets_ok_of_present (l : List AssetJson)
    (h : ∀ a ∈ l, a.browser_download_url.isSome ∧ a.name.isSome) :
    collectAssets l =
      Except.ok (l.map fun a =>
        { download_url := a.browser_download_url.getD "",
          name := a.name.getD "" }) := by
  induction l with
  | nil => rfl
  | cons a rest ih =>
    obtain ⟨h1, h2⟩ := h a (List.mem_cons_self a rest)
    obtain ⟨url, hu⟩ := Option.isSome_iff_exists.mp h1
    obtain ⟨n, hn⟩ := Option.isSome_iff_exists.mp h2
    have hrest := ih fun b hb => h b (List.mem_cons_of_mem a hb)
    simp [collectAssets, ReleaseAsset.from_asset, hu, hn, hrest]

/- ## Claim theorems -/

/-- Claim C10: `prompt_ok` accepts exactly the token `"y"` after trimming
surrounding whitespace and lowercasing, so `"y"`, `"Y"`, `" y "` are
affirmative, and every other input — including `"yes"` and the empty line —
returns the `Update "Update aborted"` error that aborts the update. -/
theorem prompt_ok_accepts_exactly_y :
    (∀ s : String, prompt_ok s = Except.ok () ↔ lowerStr (rustTrim s) = "y") ∧
    (∀ s : String, prompt_ok s ≠ Except.ok () →
       prompt_ok s = Except.error (Error.Update "Update aborted")) ∧
    prompt_ok "y" = Except.ok () ∧
    prompt_ok "Y" = Except.ok () ∧
    prompt_ok " y " = Except.ok () ∧
    prompt_ok "yes" = Except.error (Error.Update "Update aborted") ∧
    prompt_ok "" = Except.error (Error.Update "Update aborted") := by
  refine ⟨fun s => ?_, fun s => ?_, rfl, rfl, rfl, rfl, rfl⟩
  · by_cases h : lowerStr (rustTrim s) = "y" <;> simp [prompt_ok, h]
  · by_cases h : lowerStr (rustTrim s) = "y" <;> simp [prompt_ok, h]

/-- Witness for C10: the affirmative check at a concrete input. -/
theorem prompt_ok_accepts_exactly_y_witness :
    prompt_ok " y " = Except.ok () :=
  prompt_ok_accepts_exactly_y.2.2.2.2.1

/-- Claim C9: when the HTTP response has a non-success status, the
download returns an `Update` error with an empty event trace — the status
is checked before any body byte is read, so nothing is written to the
destination. -/
theorem download_bad_status_writes_nothing (resp : HttpResponse) (sp : Bool)
    (h : resp.success = false) :
    download_to_file_with_progress resp sp =
      (Except.error (Error.Update "Download request failed with status"), []) := by
  simp [download_to_file_with_progress, h]

/-- Witness for C9 at a concrete failing response carrying a body chunk. -/
theorem download_bad_status_writes_nothing_witness :
    download_to_file_with_progress ⟨false, some 10, [[1, 2, 3]]⟩ true =
      (Except.error (Error.Update "Download request failed with status"), []) :=
  download_bad_status_writes_nothing ⟨false, some 10, [[1, 2, 3]]⟩ true rfl

/-- Claim C7: when the response carries no content-length header, or a
declared length of zero, no progress event (bar render or closing line)
appears in the download trace, whatever the caller's show-progress flag. -/
theorem download_no_length_disables_progress (resp : HttpResponse) (sp : Bool)
    (h : resp.contentLength = none ∨ resp.contentLength = some 0) :
    ∀ e ∈ (download_to_file_with_progress resp sp).2, isProgressEv e = false := by
  have hsize : resp.contentLength.getD 0 = 0 := by
    rcases h with h | h <;> simp [h]
  by_cases hs : resp.success
  · intro e he
    simp [download_to_file_with_progress, hs, hsize] at he
    exact dlLoop_no_progress 0 resp.chunks 0 e he
  · intro e he
    simp [download_to_file_with_progress, eq_false_of_ne_true hs] at he

/-- Witness for C7: a successful response with a body but no
content-length, downloaded with the show-progress flag set, yields a trace
with no progress event. -/
theorem download_no_length_disables_progress_witness :
    ((download_to_file_with_progress ⟨true, none, [[5]]⟩ true).2.all
      fun e => !isProgressEv e) = true := by
  rw [List.all_eq_true]
  intro e he
  have h := download_no_length_disables_progress ⟨true, none, [[5]]⟩ true (Or.inl rfl) e he
  simp [h]

/-- Claim C5: asset selection first parses every entry, failing the whole
call with an `Update` error when any entry lacks the name or download-url
field; otherwise it returns the first asset in list order whose name
contains the target as a substring, and fails with an `Update` error when
no asset name contains the target. -/
theorem selectAsset_first_matching (assets : List AssetJson) (target : String) :
    ((∃ a ∈ assets, a.browser_download_url = none ∨ a.name = none) →
       ∃ msg, selectAsset assets target = Except.error (Error.Update msg)) ∧
    ((∀ a ∈ assets, a.browser_download_url.isSome ∧ a.name.isSome) →
       selectAsset assets target =
         match (assets.map fun a =>
             ({ download_url := a.browser_download_url.getD "",
                name := a.name.getD "" } : ReleaseAsset)).find?
             (fun ra => containsStr ra.name target) with
         | some ra => Except.ok ra
         | none => Except.error
             (Error.Update ("No release asset found for current target: " ++ target))) := by
  constructor
  · rintro ⟨a, ha, hmiss⟩
    rcases collectAssets_shape assets with ⟨ras, hr⟩ | ⟨msg, hr⟩
    · obtain ⟨h1, h2⟩ := collectAssets_present_of_ok assets ras hr a ha
      rcases hmiss with h | h <;> simp [h] at h1 h2
    · exact ⟨msg, by simp [selectAsset, hr]⟩
  · intro h
    simp only [selectAsset, collectAssets_ok_of_present assets h, head?_filter_eq_find?]

/-- Witness for C5: of the two assets of §8 of the spec, selection for
target `x86_64-unknown-linux-gnu` returns the first one. -/
theorem selectAsset_first_matching_witness :
    selectAsset
      [⟨some "u1", some "app-x86_64-unknown-linux-gnu.tar.gz"⟩,
       ⟨some "u2", some "app-aarch64-apple-darwin.tar.gz"⟩]
      "x86_64-unknown-linux-gnu" =
      Except.ok { download_url := "u1", name := "app-x86_64-unknown-linux-gnu.tar.gz" } := by
  have h := (selectAsset_first_matching
    [⟨some "u1", some "app-x86_64-unknown-linux-gnu.tar.gz"⟩,
     ⟨some "u2", some "app-aarch64-apple-darwin.tar.gz"⟩]
    "x86_64-unknown-linux-gnu").2 (by decide)
  rw [h]
  exact rfl

/-- Claim C1: whatever the outcomes of the three filesystem calls, after
`replace_exe` returns the installed path holds either exactly the contents
of the new executable or its own original contents — never a partial or
missing state (filesystem primitives modelled as atomic: each call either
fully succeeds or fails leaving the filesystem unchanged). -/
theorem replace_exe_all_or_nothing (o : ReplaceOracle) (fs : Fs)
    (current_exe new_exe tmp_file : String)
    (h1 : current_exe ≠ tmp_file) (h2 : new_exe ≠ tmp_file)
    (h3 : current_exe ≠ new_exe) :
    (∃ c, fs new_exe = some c ∧
       (replace_exe o current_exe new_exe tmp_file fs).2 current_exe = some c) ∨
    (replace_exe o current_exe new_exe tmp_file fs).2 current_exe = fs current_exe := by
  cases hc : fs current_exe with
  | none => right; simp [replace_exe, fsCopy, hc]
  | some c0 =>
    by_cases hcopy : o.copyOk
    · cases hn : fs new_exe with
      | some cn =>
        by_cases hren : o.renameOk
        · left
          refine ⟨cn, rfl, ?_⟩
          simp [replace_exe, fsCopy, fsRename, fsWrite, hc, hcopy, h2, hn, hren, h3]
        · right
          by_cases hrest : o.restoreOk
          · simp [replace_exe, fsCopy, fsRename, fsWrite, hc, hcopy, h2, hn, hren, hrest]
          · simp [replace_exe, fsCopy, fsRename, fsWrite, hc, hcopy, h2, hn, hren, hrest, h1]
      | none =>
        right
        by_cases hrest : o.restoreOk
        · simp [replace_exe, fsCopy, fsRename, fsWrite, hc, hcopy, h2, hn, hrest]
        · simp [replace_exe, fsCopy, fsRename, fsWrite, hc, hcopy, h2, hn, hrest, h1]
    · right; simp [replace_exe, fsCopy, hc, hcopy]

/-- Witness for C1 at the concrete demo filesystem with all calls
succeeding. -/
theorem replace_exe_all_or_nothing_witness :
    (∃ c, fsDemo "new" = some c ∧
       (replace_exe ⟨true, true, true⟩ "cur" "new" "tmp" fsDemo).2 "cur" = some c) ∨
    (replace_exe ⟨true, true, true⟩ "cur" "new" "tmp" fsDemo).2 "cur" = fsDemo "cur" :=
  replace_exe_all_or_nothing ⟨true, true, true⟩ fsDemo "cur" "new" "tmp"
    (by decide) (by decide) (by decide)

/-- Claim C2 (code bug): when the rename fails and the restoring copy
succeeds, `replace_exe` restores the original contents but returns `Ok`,
because the `Err(_)` arm of the source discards the rename error — the
call does not propagate the rename failure. -/
theorem replace_exe_swallows_rename_error :
    (replace_exe ⟨true, false, true⟩ "cur" "new" "tmp" fsDemo).1 = Except.ok () ∧
    (replace_exe ⟨true, false, true⟩ "cur" "new" "tmp" fsDemo).2 "cur" = some [1] :=
  ⟨rfl, rfl⟩

/-- Claim C4: given a successful metadata fetch carrying a tag, the
orchestrator proceeds past the version check (reaches asset selection) if
and only if the tag with its leading `v`s stripped is ordinally greater
than the current version; otherwise the call returns success immediately
with no side effect beyond the fetch. -/
theorem update_version_gate (u : Updater) (env : UpdateEnv) (tag : String)
    (hapi : env.apiSuccess = true) (htag : env.release.tag_name = some tag) :
    (cmpStr (trimLeadV tag) u.current_version = Ordering.gt ↔
       Ev.select ∈ (u.update env).2) ∧
    (cmpStr (trimLeadV tag) u.current_version ≠ Ordering.gt →
       u.update env = (Except.ok (), [Ev.fetch])) := by
  by_cases hgt : cmpStr (trimLeadV tag) u.current_version = Ordering.gt
  · refine ⟨⟨fun _ => ?_, fun _ => hgt⟩, fun h => absurd hgt h⟩
    unfold Updater.update
    rw [hapi, htag]
    simp only [Bool.not_true, Bool.false_eq_true, if_false, hgt, ne_eq,
      not_true_eq_false, if_false]
    repeat' split
    all_goals simp
  · have hupd : u.update env = (Except.ok (), [Ev.fetch]) := by
      unfold Updater.update
      rw [hapi, htag]
      simp [hgt]
    refine ⟨⟨fun h => absurd h hgt, fun h => ?_⟩, fun _ => hupd⟩
    rw [hupd] at h
    simp at h

/-- Witness for C4: with tag `v1.0.0` and current version `1.0.0`, the
stripped tag is not greater, and the run returns success after the fetch
alone. -/
theorem update_version_gate_witness :
    updTest.update envUpToDate = (Except.ok (), [Ev.fetch]) :=
  (update_version_gate updTest envUpToDate "v1.0.0" rfl rfl).2 (by decide)

/-- Counterexample to claim C3: declining at the confirmation prompt does
not make the update call return success — with a newer release, a matching
asset and the answer `"n"`, `prompt_ok` bails and the whole run returns the
`Update "Update aborted"` error. -/
theorem update_decline_returns_error :
    (updTest.update envDecline).1 = Except.error (Error.Update "Update aborted") := rfl

/-- Claim C3 as amended: already-up-to-date is the only non-error early
exit (the call returns success after the fetch); a declined prompt
terminates the run early but with the `Update "Update aborted"` error,
like other failures which return `Update` or `Config` errors. -/
theorem update_early_exit_outcomes (u : Updater) (env : UpdateEnv) (tag : String)
    (hapi : env.apiSuccess = true) (htag : env.release.tag_name = some tag) :
    (cmpStr (trimLeadV tag) u.current_version ≠ Ordering.gt →
       u.update env = (Except.ok (), [Ev.fetch])) ∧
    (∀ assetList ra, env.release.assets = some assetList →
       selectAsset assetList u.target = Except.ok ra →
       cmpStr (trimLeadV tag) u.current_version = Ordering.gt →
       lowerStr (rustTrim env.promptInput) ≠ "y" →
       u.update env =
         (Except.error (Error.Update "Update aborted"),
          [Ev.fetch, Ev.select, Ev.prompt])) := by
  constructor
  · intro hgt
    unfold Updater.update
    rw [hapi, htag]
    simp [hgt]
  · intro assetList ra has hsel hgt hy
    unfold Updater.update
    rw [hapi, htag, has]
    simp [hgt, hsel, prompt_ok, hy]

/-- Witness for C3 as amended, at the concrete declining environment. -/
theorem update_early_exit_outcomes_witness :
    updTest.update envDecline =
      (Except.error (Error.Update "Update aborted"),
       [Ev.fetch, Ev.select, Ev.prompt]) :=
  (update_early_exit_outcomes updTest envDecline "v1.2.0" rfl rfl).2
    [⟨some "u1", some "app-x86_64-unknown-linux-gnu.tar.gz"⟩]
    { download_url := "u1", name := "app-x86_64-unknown-linux-gnu.tar.gz" }
    rfl rfl (by decide) (by decide)

/-- Counterexample to claim C6: a builder whose required fields are all
set to the empty string builds successfully — emptiness is not checked at
construction. -/
theorem build_accepts_empty_fields :
    Builder.build
      (Builder.set_current_version
        (Builder.set_bin_name
          (Builder.set_target
            (Builder.set_repo_name
              (Builder.set_repo_owner (Builder.new "") "") "") "") "") "") =
      Except.ok { repo_owner := "", repo_name := "", target := "",
                  current_version := "", bin_name := "", bin_install_path := "",
                  bin_path_in_tarball := "", show_progress := false } := rfl

/-- Claim C6 as amended: `Builder.build` succeeds exactly when every
required field is present (set), and a missing field yields a `Config`
error at construction; non-emptiness of a set field is not enforced. -/
theorem build_requires_presence (b : Builder) :
    ((∃ u, b.build = Except.ok u) ↔
       (b.repo_owner.isSome ∧ b.repo_name.isSome ∧ b.target.isSome ∧
        b.bin_name.isSome ∧ b.bin_install_path.isSome ∧
        b.bin_path_in_tarball.isSome ∧ b.current_version.isSome)) ∧
    (¬(b.repo_owner.isSome ∧ b.repo_name.isSome ∧ b.target.isSome ∧
        b.bin_name.isSome ∧ b.bin_install_path.isSome ∧
        b.bin_path_in_tarball.isSome ∧ b.current_version.isSome) →
       ∃ msg, b.build = Except.error (Error.Config msg)) := by
  obtain ⟨ro, rn, tg, bn, ip, tb, sp, cv⟩ := b
  cases ro <;> cases rn <;> cases tg <;> cases bn <;> cases ip <;> cases tb <;>
    cases cv <;> simp [Builder.build]

/-- Witness for C6 as amended: a fully populated builder builds. -/
theorem build_requires_presence_witness :
    ∃ u, Builder.build
      ⟨some "o", some "r", some "t", some "b", some "/p", some "b", false,
       some "1.0.0"⟩ = Except.ok u :=
  (build_requires_presence
    ⟨some "o", some "r", some "t", some "b", some "/p", some "b", false,
     some "1.0.0"⟩).1.mpr (by decide)

end SelfUpdate
